import Mathlib

/-!
Verification of the parallax parallel-execution engine.

Shallow embedding of the Python sources:
* task.py     — the Task state machine (kill, timeout/interrupt, reaping, stdout handling)
* manager.py  — the Manager scheduler (fill / reap phases, finished callbacks) and the Writer
* __init__.py — host-spec expansion, result builders, the slurp front end

Machine-level concerns that cannot influence the verified properties
(actual process spawning, fd numbers, select/poll) are abstracted into
oracle parameters: the result of proc.poll() is an Option Int argument,
the outcome of os.kill is a Bool argument saying whether OSError is
raised, and whether task.running() reports true during a reap round is a
Bool-valued function on task ids.
-/

namespace Parallax

/-! ### Task model (task.py)

Fields mirror the attributes of task.py's Task class that the verified
properties touch.  procPresent models self.proc is not None; the three
pipe flags model self.stdin / self.stdout / self.stderr being open
(non-None).  sigkills is an instrumentation counter: it counts the
SIGKILL signals actually delivered to the process group by os.kill in
Task._kill (task.py line 146). -/

structure Task where
  host : String
  failures : List String
  exitstatus : Option Int
  outputbuffer : String
  errorbuffer : String
  killed : Bool
  procPresent : Bool
  sigkills : Nat
  stdinOpen : Bool
  stdoutOpen : Bool
  stderrOpen : Bool
  quiet : Bool
  inline_stdout : Bool
deriving Repr, DecidableEq

/-- Outcome of the os.kill syscall: the Bool oracle says whether the OS
raises OSError (process already dead, never spawned, ...). -/
def os_kill (raises : Bool) : Except Unit Unit :=
  if raises then Except.error () else Except.ok ()

/-- Task._kill (task.py lines 142-150): if self.proc, try os.kill(-pid,
SIGKILL) with OSError swallowed by the except clause, then set
self.killed = True.  The Except return type records whether the method
itself raises. -/
def Task.killProc (raises : Bool) (t : Task) : Except Unit Task :=
  if t.procPresent then
    match os_kill raises with
    | Except.ok _ => Except.ok { t with sigkills := t.sigkills + 1, killed := true }
    | Except.error _ => Except.ok { t with killed := true }
  else Except.ok t

/-- Task.timedout (task.py lines 152-156): if not self.killed, call
self._kill() and append the failure tag "Timed out". -/
def Task.timedout (raises : Bool) (t : Task) : Except Unit Task :=
  if !t.killed then
    match t.killProc raises with
    | Except.ok t1 => Except.ok { t1 with failures := t1.failures ++ ["Timed out"] }
    | Except.error e => Except.error e
  else Except.ok t

/-- Task.interrupted (task.py lines 158-162): if not self.killed, call
self._kill() and append the failure tag "Interrupted". -/
def Task.interrupted (raises : Bool) (t : Task) : Except Unit Task :=
  if !t.killed then
    match t.killProc raises with
    | Except.ok t1 => Except.ok { t1 with failures := t1.failures ++ ["Interrupted"] }
    | Except.error e => Except.error e
  else Except.ok t

/-- Task.running (task.py lines 172-192).  The poll argument is the
value returned by self.proc.poll(): none while the child has not
exited, some status once reaped.  Returns the updated task and the
method's boolean result (falling off the end of the Python function
returns None, i.e. falsy, modelled as false). -/
def Task.running (poll : Option Int) (t : Task) : Task × Bool :=
  if t.stdinOpen || t.stdoutOpen || t.stderrOpen then (t, true)
  else if t.procPresent then
    match poll with
    | none =>
      if t.killed then
        ({ t with exitstatus := some (-(9 : Int)) }, false)
      else
        ({ t with exitstatus := none }, true)
    | some st =>
      if st < 0 then
        ({ t with exitstatus := some st,
                  failures := t.failures ++ ["Killed by signal " ++ toString (-st)],
                  procPresent := false }, false)
      else if st > 0 then
        ({ t with exitstatus := some st,
                  failures := t.failures ++ ["Exited with error code " ++ toString st],
                  procPresent := false }, false)
      else
        ({ t with exitstatus := some st, procPresent := false }, false)
  else (t, false)

/-- Effect of Task.handle_stdout (task.py lines 215-236) on the task for
one chunk read from the pipe.  A non-empty chunk with inline_stdout set
is appended to outputbuffer, prefixed with "host: " exactly when quiet
is set (Python's "%s: %s" % (host, buf)).  The writer spill and
print_out paths do not touch outputbuffer and are omitted; the empty
chunk (EOF) closes the stdout pipe. -/
def Task.handle_stdout_buf (buf : String) (t : Task) : Task :=
  if buf ≠ "" then
    if t.inline_stdout then
      if t.quiet then { t with outputbuffer := t.outputbuffer ++ (t.host ++ ": " ++ buf) }
      else { t with outputbuffer := t.outputbuffer ++ buf }
    else t
  else { t with stdoutOpen := false }

/-! ### Host-spec expansion (__init__.py lines 77-91) -/

/-- Input element of _expand_host_port_user: a bare hostname string or a
tuple, whose components may be None (hence Option String). -/
inductive HostSpec where
  | str (s : String)
  | tup (parts : List (Option String))
deriving Repr, DecidableEq

/-- Inner expand function of _expand_host_port_user: a string s maps to
(s, None, None), a 1-tuple to (v[0], None, None), a 2-tuple to
(v[0], v[1], None), anything else is returned unchanged. -/
def expand (v : HostSpec) : List (Option String) :=
  match v with
  | HostSpec.str s => [some s, none, none]
  | HostSpec.tup parts =>
    match parts with
    | [a] => [a, none, none]
    | [a, b] => [a, b, none]
    | _ => parts

/-- The list comprehension [expand(x) for x in lst]. -/
def expand_host_port_user (lst : List HostSpec) : List (List (Option String)) :=
  lst.map expand

/-! ### Per-host results (__init__.py lines 38-52 and 94-112) -/

/-- The Error class (__init__.py lines 38-52): message plus the failing
task (the builders always pass a task, but the attribute may be None in
general, hence the Option). -/
structure Error where
  msg : String
  task : Option Task
deriving Repr, DecidableEq

/-- Error.__str__ (__init__.py lines 48-52): when a task is attached and
its error buffer is non-empty, append ", Error output: <stderr>". -/
def Error.str (e : Error) : String :=
  match e.task with
  | some t =>
    if t.errorbuffer ≠ "" then e.msg ++ ", Error output: " ++ t.errorbuffer
    else e.msg
  | none => e.msg

/-- A value of the per-host result dict: either an Error or the success
tuple (exitstatus, outputbuffer or outdir, errorbuffer or errdir). -/
inductive HostResult where
  | err (e : Error)
  | ok (rc : Option Int) (stdout : Option String) (stderr : Option String)
deriving Repr, DecidableEq

/-- The per-task value assigned by _CallOutputBuilder.result
(__init__.py lines 102-112): an Error joining the failure tags with
", " when failures is non-empty, otherwise the success triple where
Python's x or y picks the buffer when non-empty and the directory
otherwise. -/
def build_task_result (outdir errdir : Option String) (t : Task) : HostResult :=
  if t.failures ≠ [] then
    HostResult.err ⟨String.intercalate ", " t.failures, some t⟩
  else
    HostResult.ok t.exitstatus
      (if t.outputbuffer ≠ "" then some t.outputbuffer else outdir)
      (if t.errorbuffer ≠ "" then some t.errorbuffer else errdir)

/-- Python dict assignment ret[k] = v on an association list: replace in
place when the key exists, append otherwise. -/
def update_ret (m : List (String × HostResult)) (k : String) (v : HostResult) :
    List (String × HostResult) :=
  if m.any (fun p => p.1 == k) then
    m.map (fun p => if p.1 == k then (k, v) else p)
  else m ++ [(k, v)]

/-- The loop of _CallOutputBuilder.result over finished_tasks, building
the host-keyed dict. -/
def call_output_result (outdir errdir : Option String) (finished_tasks : List Task) :
    List (String × HostResult) :=
  finished_tasks.foldl (fun ret t => update_ret ret t.host (build_task_result outdir errdir t)) []

/-! ### The slurp front end (__init__.py lines 298-335) -/

/-- os.path.isabs on POSIX: the path starts with a slash (expressed on
the character list so that it evaluates inside the kernel). -/
def isabs (p : String) : Bool :=
  p.data.head? == some '/'

/-- Observable side effects of the slurp function, in program order. -/
inductive SlurpEvent where
  | madeLocalDirs
  | managerCreated
  | taskAdded (host : Option String)
  | ran
deriving Repr, DecidableEq

/-- The slurp function (__init__.py lines 298-335): the very first
statement raises ValueError when dst is absolute; only afterwards are
the local directories made, the Manager created, one task added per
expanded host, and the manager run.  The event list records which of
those effects happen. -/
def slurp_model (hosts : List HostSpec) (dst : String) :
    List SlurpEvent × Except String Unit :=
  if isabs dst then
    ([], Except.error "slurp: Destination must be a relative path")
  else
    ([SlurpEvent.madeLocalDirs, SlurpEvent.managerCreated]
       ++ (expand_host_port_user hosts).map (fun v => SlurpEvent.taskAdded (v.headD none))
       ++ [SlurpEvent.ran],
     Except.ok ())

/-! ### Manager scheduler (manager.py lines 128-195)

Tasks are identified by their position-independent ids (Nat).  The
oracle f of a reap step tells, for each task id, what task.running()
returns during that round. -/

structure Manager where
  limit : Nat
  tasks : List Nat
  running : List Nat
  done : List Nat
  calls : List (Nat × Nat)
deriving Repr, DecidableEq

/-- Manager.finished (manager.py lines 191-195): append the task to
done, then invoke callbacks.finished(task, len(done)); the calls field
records the callback invocations with their n argument. -/
def Manager.finishedTask (s : Manager) (t : Nat) : Manager :=
  { s with done := s.done ++ [t],
           calls := s.calls ++ [(t, s.done.length + 1)] }

/-- The while loop of Manager._start_tasks_once (manager.py lines
139-145): pop the head of tasks and append it to running while tasks is
non-empty and len(running) < limit.  Returns (tasks, running) after the
loop. -/
def fillGo (limit : Nat) (pending running : List Nat) : List Nat × List Nat :=
  match pending with
  | [] => ([], running)
  | t :: rest =>
    if running.length < limit then fillGo limit rest (running ++ [t])
    else (t :: rest, running)

/-- Manager._start_tasks_once as a state transformer. -/
def Manager.startTasksOnce (s : Manager) : Manager :=
  { s with tasks := (fillGo s.limit s.tasks s.running).1,
           running := (fillGo s.limit s.tasks s.running).2 }

/-- Manager.reap_tasks (manager.py lines 147-161): every running task
whose running() returns false is passed to finished (in list order);
running is replaced by the still-running tasks. -/
def Manager.reapTasks (f : Nat → Bool) (s : Manager) : Manager :=
  { (s.running.filter (fun t => !(f t))).foldl Manager.finishedTask s with
      running := s.running.filter f }

/-- Manager.interrupted (manager.py lines 181-189): finished is invoked
for every running task and then for every still-pending task; the
running and tasks lists themselves are not cleared (run() re-raises
immediately afterwards). -/
def Manager.interruptedRun (s : Manager) : Manager :=
  s.tasks.foldl Manager.finishedTask (s.running.foldl Manager.finishedTask s)

/-- One observable scheduler action: a fill phase or a reap phase with
its running() oracle. -/
inductive MStep where
  | fill
  | reap (f : Nat → Bool)

def stepM (st : MStep) (s : Manager) : Manager :=
  match st with
  | MStep.fill => s.startTasksOnce
  | MStep.reap f => s.reapTasks f

def execM (s : Manager) (tr : List MStep) : Manager :=
  tr.foldl (fun s st => stepM st s) s

/-- Manager state after __init__ and add_task for each id in l. -/
def initM (limit : Nat) (l : List Nat) : Manager :=
  ⟨limit, l, [], [], []⟩

/-- A whole observable run: a sequence of fill/reap phases, optionally
ended by the KeyboardInterrupt cleanup. -/
def runM (limit : Nat) (l : List Nat) (tr : List MStep) (intr : Bool) : Manager :=
  if intr then (execM (initM limit l) tr).interruptedRun else execM (initM limit l) tr

/-! ### Writer (manager.py lines 303-376) and Task.start (task.py lines 98-103) -/

/-- One message on the Writer queue (only OPEN matters to open_files;
data and EOF are included for completeness). -/
inductive WMsg where
  | openMsg
  | dataMsg (b : String)
  | eofMsg
deriving Repr, DecidableEq

/-- Writer state: the two optional spill directories (some exactly when
the directory is configured and truthy), the per-host collision
counters (the host_counts dict, modelled by its lookup function with
default 0), and the queue of enqueued messages. -/
structure Writer where
  outdir : Option String
  errdir : Option String
  host_counts : String → Nat
  queue : List (String × WMsg)

/-- Writer.__init__ (manager.py lines 314-323). -/
def Writer.init (outdir errdir : Option String) : Writer :=
  ⟨outdir, errdir, fun _ => 0, []⟩

/-- os.path.join for one component on POSIX: b wins when absolute, the
separator is inserted unless a is empty or already ends in a slash
(slash tests expressed on the character list so they evaluate inside
the kernel). -/
def path_join (a b : String) : String :=
  if b.data.head? == some '/' then b
  else if a = "" || a.data.getLast? == some '/' then a ++ b
  else a ++ "/" ++ b

/-- Writer.open_files (manager.py lines 342-363): bump the per-host
counter, derive the filename (host, then host.1, host.2, ... on
collision), enqueue an OPEN message per configured directory, and
return the two filename tokens. -/
def Writer.open_files (w : Writer) (host : String) :
    Writer × Option String × Option String :=
  if w.outdir.isSome || w.errdir.isSome then
    let count := w.host_counts host
    let hc := fun x => if x = host then count + 1 else w.host_counts x
    let filename := if count ≠ 0 then host ++ "." ++ toString count else host
    let outfile := w.outdir.map (fun d => path_join d filename)
    let errfile := w.errdir.map (fun d => path_join d filename)
    ({ w with host_counts := hc,
              queue := w.queue
                ++ (outfile.map (fun f => (f, WMsg.openMsg))).toList
                ++ (errfile.map (fun f => (f, WMsg.openMsg))).toList },
     outfile, errfile)
  else (w, none, none)

/-- Fold of a sequence of open_files calls (states only). -/
def openSeq (w : Writer) (hosts : List String) : Writer :=
  hosts.foldl (fun w h => (w.open_files h).1) w

/-- The pretty_host attribute as computed by Task.__init__ (task.py
lines 66-73): prepend user@ when a truthy user differs from
default_user, append :port when port is truthy. -/
def pretty_host (host : String) (port user default_user : Option String) : String :=
  let ph := host
  let ph :=
    match user with
    | some u => if u ≠ "" && some u ≠ default_user then u ++ "@" ++ ph else ph
    | none => ph
  match port with
  | some p => if p ≠ "" then ph ++ ":" ++ p else ph
  | none => ph

/-- The writer interaction of Task.start (task.py lines 98-103): when a
writer is present, self.outfile, self.errfile = writer.open_files(self.pretty_host). -/
def task_start_open_files (w : Writer) (host : String) (port user default_user : Option String) :
    Writer × Option String × Option String :=
  w.open_files (pretty_host host port user default_user)

/-! ### Concrete example tasks used by counterexamples and witnesses -/

/-- A freshly started task: process handle present, not yet killed, no
failures, all pipes already drained. -/
def exTask : Task :=
  { host := "h1", failures := [], exitstatus := none, outputbuffer := "",
    errorbuffer := "", killed := false, procPresent := true, sigkills := 0,
    stdinOpen := false, stdoutOpen := false, stderrOpen := false,
    quiet := false, inline_stdout := false }

/-- A finished task that both timed out and reports exit status 0 (the
timeout race of the spec), with captured stderr. -/
def exFailedTask : Task :=
  { host := "h1", failures := ["Timed out"], exitstatus := some 0,
    outputbuffer := "partial", errorbuffer := "boom", killed := true,
    procPresent := false, sigkills := 1, stdinOpen := false,
    stdoutOpen := false, stderrOpen := false, quiet := false,
    inline_stdout := true }

/-- The invariant tying the callback record to the done list and the
three queues to the submitted tasks. -/
def MInv (l : List Nat) (s : Manager) : Prop :=
  s.calls.map Prod.fst = s.done ∧
  s.calls.map Prod.snd = List.range' 1 s.done.length ∧
  (s.tasks ++ s.running ++ s.done).Perm l

/-! ### Helper lemmas -/

lemma killProc_eq (raises : Bool) (t : Task) :
    t.killProc raises
      = Except.ok { t with killed := t.procPresent || t.killed,
                           sigkills :=
                             t.sigkills + (if t.procPresent && !raises then 1 else 0) } := by
  rcases t with ⟨ho, fl, ex, ob, eb, kd, pp, sk, si, so, se, qt, il⟩
  cases pp <;> cases raises <;> simp [Task.killProc, os_kill]

lemma timedout_eq_of_not_killed (raises : Bool) (t : Task) (hk : t.killed = false) :
    t.timedout raises
      = Except.ok { t with killed := t.procPresent || t.killed,
                           sigkills := t.sigkills + (if t.procPresent && !raises then 1 else 0),
                           failures := t.failures ++ ["Timed out"] } := by
  simp [Task.timedout, hk, killProc_eq]

lemma interrupted_eq_of_killed (raises : Bool) (t : Task) (hk : t.killed = true) :
    t.interrupted raises = Except.ok t := by
  simp [Task.interrupted, hk]

lemma interrupted_eq_of_not_killed (raises : Bool) (t : Task) (hk : t.killed = false) :
    t.interrupted raises
      = Except.ok { t with killed := t.procPresent || t.killed,
                           sigkills := t.sigkills + (if t.procPresent && !raises then 1 else 0),
                           failures := t.failures ++ ["Interrupted"] } := by
  simp [Task.interrupted, hk, killProc_eq]

/-! ### C9 — host-spec expansion -/

/-- C9: _expand_host_port_user maps a bare string s to (s, None, None),
a 1-tuple (h,) to (h, None, None), a 2-tuple (h, p) to (h, p, None),
and any other tuple (3-tuples and longer) is returned unchanged with no
error; the output list preserves order and length. -/
theorem expand_host_port_user_spec :
    (∀ lst : List HostSpec, (expand_host_port_user lst).length = lst.length) ∧
    (∀ (lst : List HostSpec) (i : Nat),
      (expand_host_port_user lst)[i]? = lst[i]?.map expand) ∧
    (∀ s, expand (HostSpec.str s) = [some s, none, none]) ∧
    (∀ a, expand (HostSpec.tup [a]) = [a, none, none]) ∧
    (∀ a b, expand (HostSpec.tup [a, b]) = [a, b, none]) ∧
    (∀ a b c, expand (HostSpec.tup [a, b, c]) = [a, b, c]) ∧
    (∀ a b c d rest, expand (HostSpec.tup (a :: b :: c :: d :: rest))
        = a :: b :: c :: d :: rest) := by
  refine ⟨?_, ?_, ?_, ?_, ?_, ?_, ?_⟩
  · intro lst; simp [expand_host_port_user]
  · intro lst i; simp [expand_host_port_user]
  · intro s; rfl
  · intro a; rfl
  · intro a b; rfl
  · intro a b c; rfl
  · intro a b c d rest; rfl

/-! ### C10 — kill paths never raise -/

/-- C10: Task._kill swallows any OSError from os.kill, so _kill,
timedout and interrupted always return normally for every task and
every syscall outcome, and killed is set whenever a child handle
exists, regardless of whether the SIGKILL was actually delivered. -/
theorem kill_never_raises (raises : Bool) (t : Task) :
    (∃ t1, t.killProc raises = Except.ok t1
        ∧ t1.killed = (t.procPresent || t.killed)
        ∧ t1.failures = t.failures) ∧
    (∃ t2, t.timedout raises = Except.ok t2
        ∧ t2.killed = (t.killed || t.procPresent)) ∧
    (∃ t3, t.interrupted raises = Except.ok t3
        ∧ t3.killed = (t.killed || t.procPresent)) := by
  refine ⟨⟨_, killProc_eq raises t, rfl, rfl⟩, ?_, ?_⟩
  · cases hk : t.killed
    · exact ⟨_, timedout_eq_of_not_killed raises t hk, by simp [hk]⟩
    · exact ⟨t, by simp [Task.timedout, hk], by simp [hk]⟩
  · cases hk : t.killed
    · exact ⟨_, interrupted_eq_of_not_killed raises t hk, by simp [hk]⟩
    · exact ⟨t, interrupted_eq_of_killed raises t hk, by simp [hk]⟩

/-! ### C4 — timedout then interrupted -/

/-- C4 counterexample: on a started task, timedout() followed by
interrupted() delivers exactly one SIGKILL but leaves failures equal to
["Timed out"] only — the tag "Interrupted" is never appended, because
interrupted() is a no-op once killed is true. -/
theorem timedout_then_interrupted_counterexample :
    (exTask.timedout false).bind (fun u => u.interrupted false)
      = Except.ok { exTask with killed := true, sigkills := 1,
                                failures := ["Timed out"] } ∧
    ¬ ("Interrupted" ∈ ["Timed out"]) := by
  constructor
  · rfl
  · decide

/-- C4 amended: on a started, not yet killed task, timedout() followed
by interrupted() delivers exactly one SIGKILL to the process group and
appends only the tag "Timed out"; the subsequent interrupted() call is
a no-op (killed is already true), so "Interrupted" is not appended. -/
theorem timedout_then_interrupted (t : Task) (hp : t.procPresent = true)
    (hk : t.killed = false) :
    (t.timedout false).bind (fun u => u.interrupted false)
      = Except.ok { t with killed := true, sigkills := t.sigkills + 1,
                           failures := t.failures ++ ["Timed out"] } := by
  rw [timedout_eq_of_not_killed false t hk]
  simp only [Except.bind]
  rw [interrupted_eq_of_killed]
  · simp [hp, hk]
  · simp [hp]

/-- C4 witness: the amended statement evaluated on a concrete started
task. -/
theorem timedout_then_interrupted_witness :
    exTask.procPresent = true ∧ exTask.killed = false ∧
    (exTask.timedout false).bind (fun u => u.interrupted false)
      = Except.ok { exTask with killed := true, sigkills := exTask.sigkills + 1,
                                failures := exTask.failures ++ ["Timed out"] } :=
  ⟨rfl, rfl, timedout_then_interrupted exTask rfl rfl⟩

/-! ### C2 — non-empty failures aggregate to an Error -/

/-- C2: when a finished task has a non-empty failures list the result
builder assigns that host an Error (not a success tuple) regardless of
exitstatus, with message the comma-joined failure tags; rendering that
Error attaches the captured stderr exactly when the error buffer is
non-empty. -/
theorem failures_give_error (outdir errdir : Option String) (t : Task)
    (hf : t.failures ≠ []) :
    build_task_result outdir errdir t
      = HostResult.err ⟨String.intercalate ", " t.failures, some t⟩ ∧
    Error.str ⟨String.intercalate ", " t.failures, some t⟩
      = (if t.errorbuffer ≠ "" then
           String.intercalate ", " t.failures ++ ", Error output: " ++ t.errorbuffer
         else String.intercalate ", " t.failures) ∧
    call_output_result outdir errdir [t]
      = [(t.host, HostResult.err ⟨String.intercalate ", " t.failures, some t⟩)] := by
  refine ⟨?_, ?_, ?_⟩
  · simp [build_task_result, hf]
  · rfl
  · simp [call_output_result, update_ret, build_task_result, hf]

/-- C2 witness: a task with failures = ["Timed out"], exitstatus 0 and
captured stderr gets an Error whose rendering carries the stderr. -/
theorem failures_give_error_witness :
    exFailedTask.failures ≠ [] ∧
    (build_task_result (some "out") none exFailedTask
       = HostResult.err ⟨String.intercalate ", " exFailedTask.failures, some exFailedTask⟩ ∧
     Error.str ⟨String.intercalate ", " exFailedTask.failures, some exFailedTask⟩
       = (if exFailedTask.errorbuffer ≠ "" then
            String.intercalate ", " exFailedTask.failures ++ ", Error output: "
              ++ exFailedTask.errorbuffer
          else String.intercalate ", " exFailedTask.failures) ∧
     call_output_result (some "out") none [exFailedTask]
       = [(exFailedTask.host,
           HostResult.err ⟨String.intercalate ", " exFailedTask.failures, some exFailedTask⟩)]) :=
  ⟨by decide, failures_give_error (some "out") none exFailedTask (by decide)⟩

/-! ### C5 — running() reaps the child and records the status -/

/-- C5: with all three pipes closed, running() reaps the child
non-blockingly and sets exitstatus; a negative OS status appends
"Killed by signal N" with N = -status, a positive one appends
"Exited with error code N", and when the OS reports no status yet but
killed is set, exitstatus is synthesised as -SIGKILL (= -9) and
running() returns false. -/
theorem running_reaps_exitstatus (t : Task) (st : Int)
    (hin : t.stdinOpen = false) (hout : t.stdoutOpen = false)
    (herr : t.stderrOpen = false) (hp : t.procPresent = true) :
    (st < 0 →
      t.running (some st)
        = ({ t with exitstatus := some st,
                    failures := t.failures ++ ["Killed by signal " ++ toString (-st)],
                    procPresent := false }, false)) ∧
    (0 < st →
      t.running (some st)
        = ({ t with exitstatus := some st,
                    failures := t.failures ++ ["Exited with error code " ++ toString st],
                    procPresent := false }, false)) ∧
    (st = 0 →
      t.running (some st) = ({ t with exitstatus := some st, procPresent := false }, false)) ∧
    (t.killed = true →
      t.running none = ({ t with exitstatus := some (-9) }, false)) ∧
    (t.killed = false →
      t.running none = ({ t with exitstatus := none }, true)) := by
  refine ⟨?_, ?_, ?_, ?_, ?_⟩
  · intro h; simp [Task.running, hin, hout, herr, hp, h]
  · intro h
    simp [Task.running, hin, hout, herr, hp, h, show ¬ st < 0 by omega]
  · intro h; subst h
    simp [Task.running, hin, hout, herr, hp]
  · intro h; simp [Task.running, hin, hout, herr, hp, h]
  · intro h; simp [Task.running, hin, hout, herr, hp, h]

/-- C5 witness: the statement evaluated for a drained started task
killed by signal 15. -/
theorem running_reaps_exitstatus_witness :
    exTask.stdinOpen = false ∧ exTask.stdoutOpen = false ∧ exTask.stderrOpen = false ∧
    exTask.procPresent = true ∧
    (((-15 : Int) < 0 →
      exTask.running (some (-15))
        = ({ exTask with
               exitstatus := some (-15),
               failures := exTask.failures ++ ["Killed by signal " ++ toString (-(-15 : Int))],
               procPresent := false }, false)) ∧
     ((0 : Int) < -15 →
      exTask.running (some (-15))
        = ({ exTask with
               exitstatus := some (-15),
               failures := exTask.failures ++ ["Exited with error code " ++ toString (-15 : Int)],
               procPresent := false }, false)) ∧
     ((-15 : Int) = 0 →
      exTask.running (some (-15))
        = ({ exTask with exitstatus := some (-15), procPresent := false }, false)) ∧
     (exTask.killed = true →
      exTask.running none = ({ exTask with exitstatus := some (-9) }, false)) ∧
     (exTask.killed = false →
      exTask.running none = ({ exTask with exitstatus := none }, true))) :=
  ⟨rfl, rfl, rfl, rfl, running_reaps_exitstatus exTask (-15) rfl rfl rfl rfl⟩

/-! ### C6 — inline stdout buffering -/

lemma string_foldl_append (l : List String) :
    ∀ a : String, l.foldl (fun r s => r ++ s) a = a ++ l.foldl (fun r s => r ++ s) "" := by
  induction l with
  | nil => intro a; simp
  | cons x xs ih =>
    intro a
    simp only [List.foldl_cons]
    rw [ih (a ++ x), ih ("" ++ x), String.empty_append, String.append_assoc]

lemma string_join_cons (c : String) (rest : List String) :
    String.join (c :: rest) = c ++ String.join rest := by
  simp only [String.join, List.foldl_cons, String.empty_append]
  exact string_foldl_append rest c

lemma handle_stdout_buf_quiet_field (buf : String) (t : Task) :
    (Task.handle_stdout_buf buf t).quiet = t.quiet
      ∧ (Task.handle_stdout_buf buf t).inline_stdout = t.inline_stdout := by
  unfold Task.handle_stdout_buf
  split_ifs <;> simp

lemma handle_stdout_buf_not_quiet (buf : String) (t : Task)
    (hin : t.inline_stdout = true) (hq : t.quiet = false) :
    (Task.handle_stdout_buf buf t).outputbuffer = t.outputbuffer ++ buf := by
  by_cases hb : buf = ""
  · subst hb; simp [Task.handle_stdout_buf]
  · simp [Task.handle_stdout_buf, hb, hin, hq]

lemma foldl_handle_stdout (chunks : List String) :
    ∀ t : Task, t.inline_stdout = true → t.quiet = false →
      (chunks.foldl (fun u c => Task.handle_stdout_buf c u) t).outputbuffer
        = t.outputbuffer ++ String.join chunks := by
  induction chunks with
  | nil => intro t _ _; simp [String.join]
  | cons c rest ih =>
    intro t hin hq
    have hf := handle_stdout_buf_quiet_field c t
    rw [List.foldl_cons, ih _ (by rw [hf.2, hin]) (by rw [hf.1, hq]),
        handle_stdout_buf_not_quiet c t hin hq, string_join_cons, String.append_assoc]

/-- C6: with inline_stdout set, every non-empty chunk read by the
stdout handler is appended to the in-memory stdout buffer, prefixed
with "host: " exactly when quiet is set; with quiet unset the buffer
after any sequence of reads is the concatenation of all chunks. -/
theorem handle_stdout_inline (t : Task) (buf : String)
    (hne : buf ≠ "") (hin : t.inline_stdout = true) :
    (Task.handle_stdout_buf buf t).outputbuffer
      = t.outputbuffer ++ (if t.quiet then t.host ++ ": " ++ buf else buf) ∧
    (t.quiet = false →
      ∀ chunks : List String,
        (chunks.foldl (fun u c => Task.handle_stdout_buf c u) t).outputbuffer
          = t.outputbuffer ++ String.join chunks) := by
  constructor
  · cases hq : t.quiet <;> simp [Task.handle_stdout_buf, hne, hin, hq]
  · intro hq chunks
    exact foldl_handle_stdout chunks t hin hq

/-- C6 witness: two chunks on a task with inline stdout and quiet
unset. -/
theorem handle_stdout_inline_witness :
    "out1" ≠ "" ∧ exFailedTask.inline_stdout = true ∧
    ((Task.handle_stdout_buf "out1" exFailedTask).outputbuffer
       = exFailedTask.outputbuffer
           ++ (if exFailedTask.quiet then exFailedTask.host ++ ": " ++ "out1" else "out1") ∧
     (exFailedTask.quiet = false →
       ∀ chunks : List String,
         (chunks.foldl (fun u c => Task.handle_stdout_buf c u) exFailedTask).outputbuffer
           = exFailedTask.outputbuffer ++ String.join chunks)) :=
  ⟨by decide, rfl, handle_stdout_inline exFailedTask "out1" (by decide) rfl⟩

/-! ### C7 — slurp rejects absolute destinations synchronously -/

/-- C7: slurp raises ValueError before creating directories, a manager
or any task whenever dst is an absolute path, and performs this check
on no relative dst, in which case all the effects happen. -/
theorem slurp_absolute_dst (hosts : List HostSpec) (dst : String) :
    (isabs dst = true →
      slurp_model hosts dst
        = ([], Except.error "slurp: Destination must be a relative path")) ∧
    (isabs dst = false →
      (slurp_model hosts dst).2 = Except.ok () ∧
      (slurp_model hosts dst).1
        = [SlurpEvent.madeLocalDirs, SlurpEvent.managerCreated]
            ++ (expand_host_port_user hosts).map
                (fun v => SlurpEvent.taskAdded (v.headD none))
            ++ [SlurpEvent.ran]) := by
  constructor
  · intro h; simp [slurp_model, h]
  · intro h; simp [slurp_model, h]

/-! ### Scheduler lemmas for C1 and C3 -/

lemma fillGo_length_le (limit : Nat) :
    ∀ (pending running : List Nat), running.length ≤ limit →
      (fillGo limit pending running).2.length ≤ limit := by
  intro pending
  induction pending with
  | nil => intro running h; simpa [fillGo] using h
  | cons t rest ih =>
    intro running h
    by_cases hlt : running.length < limit
    · have h2 : (running ++ [t]).length ≤ limit := by
        simp only [List.length_append, List.length_singleton]; omega
      simpa [fillGo, hlt] using ih (running ++ [t]) h2
    · simpa [fillGo, hlt] using h

lemma fillGo_perm (limit : Nat) :
    ∀ (pending running : List Nat),
      ((fillGo limit pending running).1 ++ (fillGo limit pending running).2).Perm
        (pending ++ running) := by
  intro pending
  induction pending with
  | nil => intro running; simp [fillGo]
  | cons t rest ih =>
    intro running
    by_cases hlt : running.length < limit
    · have h1 := ih (running ++ [t])
      simp only [fillGo, hlt, if_true]
      exact h1.trans
        (((List.perm_append_singleton t running).append_left rest).trans List.perm_middle)
    · simp [fillGo, hlt]

lemma foldl_finishedTask_fields (l : List Nat) :
    ∀ s : Manager,
      (l.foldl Manager.finishedTask s).limit = s.limit ∧
      (l.foldl Manager.finishedTask s).tasks = s.tasks ∧
      (l.foldl Manager.finishedTask s).running = s.running ∧
      (l.foldl Manager.finishedTask s).done = s.done ++ l := by
  induction l with
  | nil => intro s; simp
  | cons a rest ih =>
    intro s
    have h := ih (s.finishedTask a)
    simp only [List.foldl_cons]
    refine ⟨h.1, h.2.1, h.2.2.1, ?_⟩
    rw [h.2.2.2]
    simp [Manager.finishedTask]

lemma range'_snoc (s n : Nat) : List.range' s (n + 1) = List.range' s n ++ [s + n] := by
  induction n generalizing s with
  | zero => simp [List.range']
  | succ n ih =>
    rw [List.range'_succ, ih, List.range'_succ]
    simp [Nat.add_assoc, Nat.add_comm 1 n]

lemma foldl_finishedTask_calls (l : List Nat) :
    ∀ s : Manager,
      s.calls.map Prod.fst = s.done →
      s.calls.map Prod.snd = List.range' 1 s.done.length →
      ((l.foldl Manager.finishedTask s).calls.map Prod.fst
          = (l.foldl Manager.finishedTask s).done ∧
       (l.foldl Manager.finishedTask s).calls.map Prod.snd
          = List.range' 1 (l.foldl Manager.finishedTask s).done.length) := by
  induction l with
  | nil => intro s h1 h2; exact ⟨h1, h2⟩
  | cons a rest ih =>
    intro s h1 h2
    simp only [List.foldl_cons]
    apply ih
    · simp [Manager.finishedTask, h1]
    · show (s.calls ++ [(a, s.done.length + 1)]).map Prod.snd
        = List.range' 1 ((s.done ++ [a]).length)
      rw [List.map_append, h2, List.length_append]
      simp [range'_snoc, Nat.add_comm]

lemma stepM_limit (st : MStep) (s : Manager) : (stepM st s).limit = s.limit := by
  cases st with
  | fill => rfl
  | reap f =>
    exact (foldl_finishedTask_fields (s.running.filter (fun t => !(f t))) s).1

lemma stepM_running_le (st : MStep) (s : Manager) (h : s.running.length ≤ s.limit) :
    (stepM st s).running.length ≤ s.limit := by
  cases st with
  | fill => exact fillGo_length_le s.limit s.tasks s.running h
  | reap f => exact le_trans (List.length_filter_le f s.running) h

lemma stepM_MInv (l : List Nat) (st : MStep) (s : Manager) (h : MInv l s) :
    MInv l (stepM st s) := by
  obtain ⟨h1, h2, h3⟩ := h
  cases st with
  | fill =>
    refine ⟨h1, h2, ?_⟩
    exact ((fillGo_perm s.limit s.tasks s.running).append_right s.done).trans h3
  | reap f =>
    have hf := foldl_finishedTask_fields (s.running.filter (fun t => !(f t))) s
    have hc := foldl_finishedTask_calls (s.running.filter (fun t => !(f t))) s h1 h2
    refine ⟨hc.1, hc.2, ?_⟩
    show (((s.running.filter (fun t => !(f t))).foldl Manager.finishedTask s).tasks
            ++ s.running.filter f
            ++ ((s.running.filter (fun t => !(f t))).foldl Manager.finishedTask s).done).Perm l
    rw [hf.2.1, hf.2.2.2, List.append_assoc]
    have hfil : (s.running.filter f ++ s.running.filter (fun t => !(f t))).Perm s.running :=
      List.filter_append_perm f s.running
    have q1 : (s.running.filter f
        ++ (s.running.filter (fun t => !(f t)) ++ s.done)).Perm (s.running ++ s.done) := by
      rw [← List.append_assoc]
      exact hfil.append_right _
    have q2 : (s.running.filter f ++ (s.done ++ s.running.filter (fun t => !(f t)))).Perm
        (s.running.filter f ++ (s.running.filter (fun t => !(f t)) ++ s.done)) :=
      List.Perm.append_left _ List.perm_append_comm
    refine ((q2.trans q1).append_left s.tasks).trans ?_
    rw [← List.append_assoc]
    exact h3

lemma execM_MInv (l : List Nat) (tr : List MStep) :
    ∀ s : Manager, MInv l s → MInv l (execM s tr) := by
  induction tr with
  | nil => intro s h; exact h
  | cons st rest ih => intro s h; exact ih (stepM st s) (stepM_MInv l st s h)

lemma interruptedRun_props (s : Manager)
    (h1 : s.calls.map Prod.fst = s.done)
    (h2 : s.calls.map Prod.snd = List.range' 1 s.done.length) :
    s.interruptedRun.calls.map Prod.fst = s.interruptedRun.done ∧
    s.interruptedRun.calls.map Prod.snd = List.range' 1 s.interruptedRun.done.length ∧
    s.interruptedRun.done = s.done ++ s.running ++ s.tasks := by
  have hcA := foldl_finishedTask_calls s.running s h1 h2
  have hA := foldl_finishedTask_fields s.running s
  have hcB := foldl_finishedTask_calls s.tasks
    (s.running.foldl Manager.finishedTask s) hcA.1 hcA.2
  have hB := foldl_finishedTask_fields s.tasks (s.running.foldl Manager.finishedTask s)
  refine ⟨hcB.1, hcB.2, ?_⟩
  show (s.tasks.foldl Manager.finishedTask (s.running.foldl Manager.finishedTask s)).done
    = s.done ++ s.running ++ s.tasks
  rw [hB.2.2.2, hA.2.2.2]

/-! ### C1 — bounded parallelism -/

/-- C1: starting from any submitted task list, after any sequence of
fill and reap phases the running list never exceeds the parallelism cap
limit: the fill phase only starts a popped task while the running count
is strictly below limit. -/
theorem bounded_parallelism (limit : Nat) (l : List Nat) (tr : List MStep) :
    (execM (initM limit l) tr).running.length ≤ limit := by
  suffices h : ∀ (tr : List MStep) (s : Manager), s.running.length ≤ s.limit →
      (execM s tr).running.length ≤ s.limit by
    simpa [initM] using h tr (initM limit l) (by simp [initM])
  intro tr
  induction tr with
  | nil => intro s h; exact h
  | cons st rest ih =>
    intro s h
    have h1 : (stepM st s).running.length ≤ (stepM st s).limit := by
      rw [stepM_limit]; exact stepM_running_le st s h
    have h2 := ih (stepM st s) h1
    rw [stepM_limit] at h2
    exact h2

/-! ### C3 — finished callback order -/

/-- C3: along any run (any sequence of fill and reap phases, optionally
closed by the keyboard-interrupt cleanup) the finished callback
receives n = 1, 2, ..., strictly increasing and equal to the length of
the done list after appending; and whenever the run completes (pending
and running empty, or the interrupt cleanup ran) the callback was
invoked exactly once per submitted task. -/
theorem finished_callback_sequence (limit : Nat) (l : List Nat) (tr : List MStep)
    (intr : Bool) (hn : l.Nodup) :
    (runM limit l tr intr).calls.map Prod.snd
        = List.range' 1 (runM limit l tr intr).calls.length ∧
    (runM limit l tr intr).calls.map Prod.fst = (runM limit l tr intr).done ∧
    ((intr = true ∨ ((runM limit l tr intr).tasks = [] ∧ (runM limit l tr intr).running = [])) →
      ((runM limit l tr intr).done.Perm l ∧ (runM limit l tr intr).done.Nodup)) := by
  have hinit : MInv l (initM limit l) := by
    refine ⟨rfl, rfl, ?_⟩
    simp [initM]
  obtain ⟨h1, h2, h3⟩ := execM_MInv l tr (initM limit l) hinit
  cases intr with
  | false =>
    have e : runM limit l tr false = execM (initM limit l) tr := rfl
    rw [e]
    have hlen : (execM (initM limit l) tr).calls.length
        = (execM (initM limit l) tr).done.length := by
      rw [← h1]; simp
    refine ⟨by rw [h2, hlen], h1, ?_⟩
    rintro (habs | ⟨ht, hr⟩)
    · exact absurd habs (by simp)
    · have hp : ((execM (initM limit l) tr).tasks ++ (execM (initM limit l) tr).running
          ++ (execM (initM limit l) tr).done).Perm l := h3
      rw [ht, hr] at hp
      simp only [List.nil_append] at hp
      exact ⟨hp, hp.symm.nodup hn⟩
  | true =>
    have e : runM limit l tr true = (execM (initM limit l) tr).interruptedRun := rfl
    rw [e]
    obtain ⟨ha, hb, hc⟩ := interruptedRun_props (execM (initM limit l) tr) h1 h2
    have hlen : (execM (initM limit l) tr).interruptedRun.calls.length
        = (execM (initM limit l) tr).interruptedRun.done.length := by
      rw [← ha]; simp
    refine ⟨by rw [hb, hlen], ha, ?_⟩
    intro _
    have hperm : (execM (initM limit l) tr).interruptedRun.done.Perm l := by
      rw [hc]
      have p1 : (((execM (initM limit l) tr).done ++ (execM (initM limit l) tr).running)
            ++ (execM (initM limit l) tr).tasks).Perm
          ((execM (initM limit l) tr).tasks
            ++ ((execM (initM limit l) tr).done ++ (execM (initM limit l) tr).running)) :=
        List.perm_append_comm
      have p2 : ((execM (initM limit l) tr).tasks
            ++ ((execM (initM limit l) tr).done ++ (execM (initM limit l) tr).running)).Perm
          ((execM (initM limit l) tr).tasks
            ++ ((execM (initM limit l) tr).running ++ (execM (initM limit l) tr).done)) :=
        List.Perm.append_left _ List.perm_append_comm
      refine (p1.trans (p2.trans ?_))
      rw [← List.append_assoc]
      exact h3
    exact ⟨hperm, hperm.symm.nodup hn⟩

/-- C3 witness: a two-task run under limit 1 that fills and reaps twice
to completion. -/
theorem finished_callback_sequence_witness :
    ([5, 7] : List Nat).Nodup ∧
    ((runM 1 [5, 7] [MStep.fill, MStep.reap (fun _ => false),
                     MStep.fill, MStep.reap (fun _ => false)] false).calls.map Prod.snd
        = List.range' 1 ((runM 1 [5, 7] [MStep.fill, MStep.reap (fun _ => false),
                     MStep.fill, MStep.reap (fun _ => false)] false).calls.length) ∧
     (runM 1 [5, 7] [MStep.fill, MStep.reap (fun _ => false),
                     MStep.fill, MStep.reap (fun _ => false)] false).calls.map Prod.fst
        = (runM 1 [5, 7] [MStep.fill, MStep.reap (fun _ => false),
                     MStep.fill, MStep.reap (fun _ => false)] false).done ∧
     ((false = true ∨ ((runM 1 [5, 7] [MStep.fill, MStep.reap (fun _ => false),
                     MStep.fill, MStep.reap (fun _ => false)] false).tasks = [] ∧
         (runM 1 [5, 7] [MStep.fill, MStep.reap (fun _ => false),
                     MStep.fill, MStep.reap (fun _ => false)] false).running = [])) →
       ((runM 1 [5, 7] [MStep.fill, MStep.reap (fun _ => false),
                     MStep.fill, MStep.reap (fun _ => false)] false).done.Perm [5, 7] ∧
        (runM 1 [5, 7] [MStep.fill, MStep.reap (fun _ => false),
                     MStep.fill, MStep.reap (fun _ => false)] false).done.Nodup))) :=
  ⟨by decide,
   finished_callback_sequence 1 [5, 7]
     [MStep.fill, MStep.reap (fun _ => false), MStep.fill, MStep.reap (fun _ => false)]
     false (by decide)⟩

/-- C7 witness: an absolute destination is rejected with no observable
effects; a relative one proceeds. -/
theorem slurp_absolute_dst_witness :
    isabs "/abs/path" = true ∧
    slurp_model [HostSpec.str "h1"] "/abs/path"
      = ([], Except.error "slurp: Destination must be a relative path") ∧
    isabs "para.test" = false ∧
    (slurp_model [HostSpec.str "h1"] "para.test").2 = Except.ok () :=
  ⟨by decide, (slurp_absolute_dst [HostSpec.str "h1"] "/abs/path").1 (by decide),
   by decide, ((slurp_absolute_dst [HostSpec.str "h1"] "para.test").2 (by decide)).1⟩

/-! ### C8 — Writer filename allocation -/

lemma open_files_dirs (w : Writer) (x : String) :
    (w.open_files x).1.outdir = w.outdir ∧ (w.open_files x).1.errdir = w.errdir := by
  unfold Writer.open_files
  split_ifs <;> simp

lemma open_files_counts (w : Writer) (x h : String)
    (hc : (w.outdir.isSome || w.errdir.isSome) = true) :
    (w.open_files x).1.host_counts h
      = w.host_counts h + (if x = h then 1 else 0) := by
  simp only [Writer.open_files, hc, if_true]
  by_cases hx : h = x
  · subst hx; simp
  · simp [hx, Ne.symm hx]

lemma open_files_outfile (w : Writer) (host : String)
    (hc : (w.outdir.isSome || w.errdir.isSome) = true) :
    (w.open_files host).2.1
      = w.outdir.map (fun d => path_join d
          (if w.host_counts host ≠ 0 then
             host ++ "." ++ toString (w.host_counts host) else host)) := by
  simp [Writer.open_files, hc]

lemma open_files_errfile (w : Writer) (host : String)
    (hc : (w.outdir.isSome || w.errdir.isSome) = true) :
    (w.open_files host).2.2
      = w.errdir.map (fun d => path_join d
          (if w.host_counts host ≠ 0 then
             host ++ "." ++ toString (w.host_counts host) else host)) := by
  simp [Writer.open_files, hc]

lemma open_files_queue (w : Writer) (host : String)
    (hc : (w.outdir.isSome || w.errdir.isSome) = true) :
    (w.open_files host).1.queue
      = w.queue
        ++ (w.outdir.map (fun d => (path_join d
              (if w.host_counts host ≠ 0 then
                 host ++ "." ++ toString (w.host_counts host) else host),
              WMsg.openMsg))).toList
        ++ (w.errdir.map (fun d => (path_join d
              (if w.host_counts host ≠ 0 then
                 host ++ "." ++ toString (w.host_counts host) else host),
              WMsg.openMsg))).toList := by
  simp [Writer.open_files, hc, Function.comp_def]

lemma openSeq_dirs (pre : List String) :
    ∀ w : Writer, (openSeq w pre).outdir = w.outdir ∧ (openSeq w pre).errdir = w.errdir := by
  induction pre with
  | nil => intro w; exact ⟨rfl, rfl⟩
  | cons x rest ih =>
    intro w
    have h := ih (w.open_files x).1
    have hd := open_files_dirs w x
    exact ⟨h.1.trans hd.1, h.2.trans hd.2⟩

lemma openSeq_counts (pre : List String) :
    ∀ (w : Writer) (h : String), (w.outdir.isSome || w.errdir.isSome) = true →
      (openSeq w pre).host_counts h = w.host_counts h + pre.count h := by
  induction pre with
  | nil => intro w h _; simp [openSeq]
  | cons x rest ih =>
    intro w h hc
    have hd := open_files_dirs w x
    have hc2 : ((w.open_files x).1.outdir.isSome || (w.open_files x).1.errdir.isSome) = true := by
      rw [hd.1, hd.2]; exact hc
    have step : openSeq w (x :: rest) = openSeq (w.open_files x).1 rest := rfl
    rw [step, ih (w.open_files x).1 h hc2, open_files_counts w x h hc, List.count_cons]
    simp only [beq_iff_eq]
    omega

/-- C8: in any sequence of open_files calls, a call for host key h
with k - 1 prior calls for the same key allocates the filename h when
k = 1 and h.(k-1) when k > 1, joined under outdir and errdir; the
returned pair holds a token exactly for each configured directory and
an OPEN message is enqueued per configured sink; the host key passed by
Task.start is the task's pretty_host, which is the bare host when no
user or port is set. -/
theorem writer_open_files_allocation
    (outdir errdir : Option String) (pre : List String) (host : String)
    (hcfg : (outdir.isSome || errdir.isSome) = true) :
    (((openSeq (Writer.init outdir errdir) pre).open_files host).2.1
        = outdir.map (fun d => path_join d
            (if pre.count host ≠ 0 then
               host ++ "." ++ toString (pre.count host) else host)) ∧
     ((openSeq (Writer.init outdir errdir) pre).open_files host).2.2
        = errdir.map (fun d => path_join d
            (if pre.count host ≠ 0 then
               host ++ "." ++ toString (pre.count host) else host)) ∧
     ((openSeq (Writer.init outdir errdir) pre).open_files host).1.queue
        = (openSeq (Writer.init outdir errdir) pre).queue
          ++ (outdir.map (fun d => (path_join d
                (if pre.count host ≠ 0 then
                   host ++ "." ++ toString (pre.count host) else host),
                WMsg.openMsg))).toList
          ++ (errdir.map (fun d => (path_join d
                (if pre.count host ≠ 0 then
                   host ++ "." ++ toString (pre.count host) else host),
                WMsg.openMsg))).toList) ∧
    (∀ (w : Writer) (h2 : String) (port user du : Option String),
       task_start_open_files w h2 port user du
         = w.open_files (pretty_host h2 port user du)) ∧
    (∀ (h2 : String) (du : Option String), pretty_host h2 none none du = h2) := by
  have hdirs := openSeq_dirs pre (Writer.init outdir errdir)
  have hcw : ((openSeq (Writer.init outdir errdir) pre).outdir.isSome
      || (openSeq (Writer.init outdir errdir) pre).errdir.isSome) = true := by
    rw [hdirs.1, hdirs.2]; exact hcfg
  have hcnt : (openSeq (Writer.init outdir errdir) pre).host_counts host = pre.count host := by
    rw [openSeq_counts pre (Writer.init outdir errdir) host hcfg]
    simp [Writer.init]
  refine ⟨⟨?_, ?_, ?_⟩, ?_, ?_⟩
  · rw [open_files_outfile _ host hcw, hcnt, hdirs.1]; rfl
  · rw [open_files_errfile _ host hcw, hcnt, hdirs.2]; rfl
  · rw [open_files_queue _ host hcw, hcnt, hdirs.1, hdirs.2]; rfl
  · intro w h2 port user du; rfl
  · intro h2 du; rfl

/-- C8 witness: two prior calls for the same host with only outdir
configured. -/
theorem writer_open_files_allocation_witness :
    ((some "out" : Option String).isSome || (none : Option String).isSome) = true ∧
    ((((openSeq (Writer.init (some "out") none) ["h1", "h1"]).open_files "h1").2.1
        = (some "out" : Option String).map (fun d => path_join d
            (if (["h1", "h1"] : List String).count "h1" ≠ 0 then
               "h1" ++ "." ++ toString ((["h1", "h1"] : List String).count "h1") else "h1")) ∧
      ((openSeq (Writer.init (some "out") none) ["h1", "h1"]).open_files "h1").2.2
        = (none : Option String).map (fun d => path_join d
            (if (["h1", "h1"] : List String).count "h1" ≠ 0 then
               "h1" ++ "." ++ toString ((["h1", "h1"] : List String).count "h1") else "h1")) ∧
      ((openSeq (Writer.init (some "out") none) ["h1", "h1"]).open_files "h1").1.queue
        = (openSeq (Writer.init (some "out") none) ["h1", "h1"]).queue
          ++ ((some "out" : Option String).map (fun d => (path_join d
                (if (["h1", "h1"] : List String).count "h1" ≠ 0 then
                   "h1" ++ "." ++ toString ((["h1", "h1"] : List String).count "h1") else "h1"),
                WMsg.openMsg))).toList
          ++ ((none : Option String).map (fun d => (path_join d
                (if (["h1", "h1"] : List String).count "h1" ≠ 0 then
                   "h1" ++ "." ++ toString ((["h1", "h1"] : List String).count "h1") else "h1"),
                WMsg.openMsg))).toList) ∧
     (∀ (w : Writer) (h2 : String) (port user du : Option String),
        task_start_open_files w h2 port user du
          = w.open_files (pretty_host h2 port user du)) ∧
     (∀ (h2 : String) (du : Option String), pretty_host h2 none none du = h2)) :=
  ⟨by decide,
   writer_open_files_allocation (some "out") none ["h1", "h1"] "h1" (by decide)⟩

end Parallax
